import Mathlib

/-!
# Verification of the minimalistic pomodoro timer core

Shallow embedding of `src/core/timer_logic.py` (class `TimerCore`) and of the
settings persistence in `src/config/settings_manager.py` (class
`SettingsManager`), with theorems settling the specified properties.

Conventions of the embedding:
* Python wall-clock readings (`time.time()`, a float) are modelled as rationals
  (`ℚ`); each method call receives the clock reading `now` it performs.
* Python `int` is modelled as `ℤ`; `int(x)` on a float is truncation toward
  zero, modelled by `pyint`.
* The two completion callbacks are modelled by two `Bool` registration flags;
  an operation returns, besides the new state, how many times it invoked the
  work-complete and the pause-complete callback.
-/

namespace Pomodoro

/-- Python `int(x)` applied to a float: truncation toward zero. -/
def pyint (q : ℚ) : ℤ :=
  if 0 ≤ q then ⌊q⌋ else -⌊-q⌋

/-- The two timer phases `TIMER_PHASE_WORK` / `TIMER_PHASE_PAUSE`
(string constants in `core/constants.py`, modelled as an enumeration). -/
inductive Phase where
  | work
  | pause
deriving DecidableEq, Repr

/-- Modelled from the spec: `core/constants.py` is not present in the sources;
the spec fixes the default work duration at 25 minutes. -/
def DEFAULT_DURATION_MINUTES : ℤ := 25

/-- Modelled from the spec: default pause duration, 5 minutes. -/
def DEFAULT_PAUSE_DURATION_MINUTES : ℤ := 5

/-- Modelled from the spec: default work duration in seconds (25 minutes). -/
def DEFAULT_DURATION_SECONDS : ℤ := DEFAULT_DURATION_MINUTES * 60

/-- Modelled from the spec: default pause duration in seconds (5 minutes). -/
def DEFAULT_PAUSE_DURATION_SECONDS : ℤ := DEFAULT_PAUSE_DURATION_MINUTES * 60

/-- The mutable state of `TimerCore` (`timer_logic.py`, `__init__`).
`on_work_complete` / `on_pause_complete` record whether the corresponding
callback is registered (not `None`). -/
structure TimerCore where
  work_duration_seconds : ℤ
  pause_duration_seconds : ℤ
  current_phase : Phase
  duration : ℤ
  target_end_time : Option ℚ
  running : Bool
  on_work_complete : Bool
  on_pause_complete : Bool
deriving DecidableEq, Repr

namespace TimerCore

/-- `TimerCore.__init__`: phase WORK, duration = work duration, not running,
no target, no callbacks registered. -/
def init (work_duration_seconds pause_duration_seconds : ℤ) : TimerCore where
  work_duration_seconds := work_duration_seconds
  pause_duration_seconds := pause_duration_seconds
  current_phase := .work
  duration := work_duration_seconds
  target_end_time := none
  running := false
  on_work_complete := false
  on_pause_complete := false

/-- `TimerCore.get_time_left`: the cached `duration` when not running or no
target is set; otherwise `max(0, int(target_end_time - time.time()))`. -/
def get_time_left (s : TimerCore) (now : ℚ) : ℤ :=
  if s.running = false then s.duration
  else match s.target_end_time with
    | none => s.duration
    | some t => max 0 (pyint (t - now))

/-- `TimerCore.start`: no-op when running; otherwise sets `running = True`
first, then `target_end_time = time.time() + self.get_time_left()` (the inner
`get_time_left` therefore sees the already-updated `running` flag). -/
def start (s : TimerCore) (now : ℚ) : TimerCore :=
  if s.running = false then
    let s1 := { s with running := true }
    { s1 with target_end_time := some (now + (get_time_left s1 now : ℚ)) }
  else s

/-- `TimerCore.pause`: no-op when not running; otherwise snapshots
`duration = get_time_left()`, clears the target, clears `running`. -/
def pause (s : TimerCore) (now : ℚ) : TimerCore :=
  if s.running = true then
    { s with
      duration := get_time_left s now
      target_end_time := none
      running := false }
  else s

/-- `TimerCore.toggle`. -/
def toggle (s : TimerCore) (now : ℚ) : TimerCore :=
  if s.running = true then s.pause now else s.start now

/-- `TimerCore.reset`: back to WORK phase with the configured work duration,
stopped, target cleared. -/
def reset (s : TimerCore) : TimerCore :=
  { s with
    current_phase := .work
    duration := s.work_duration_seconds
    target_end_time := none
    running := false }

/-- `TimerCore.set_work_duration`: only `minutes > 0` accepted; updates the
live `duration` when the current phase is WORK. -/
def set_work_duration (s : TimerCore) (minutes : ℤ) : TimerCore :=
  if minutes > 0 then
    let s1 := { s with work_duration_seconds := minutes * 60 }
    if s1.current_phase = .work then
      { s1 with duration := s1.work_duration_seconds }
    else s1
  else s

/-- `TimerCore.set_pause_duration`: only `minutes ≥ 0` accepted (0 disables
the pause phase); updates the live `duration` when the current phase is
PAUSE. -/
def set_pause_duration (s : TimerCore) (minutes : ℤ) : TimerCore :=
  if minutes ≥ 0 then
    let s1 := { s with pause_duration_seconds := minutes * 60 }
    if s1.current_phase = .pause then
      { s1 with duration := s1.pause_duration_seconds }
    else s1
  else s

/-- `TimerCore.is_finished`: running and remaining time zero. -/
def is_finished (s : TimerCore) (now : ℚ) : Bool :=
  s.running && decide (s.get_time_left now = 0)

/-- `TimerCore._transition_to_pause`: switch to the PAUSE phase with the
configured pause duration, then auto-start. -/
def transition_to_pause (s : TimerCore) (now : ℚ) : TimerCore :=
  start { s with current_phase := .pause, duration := s.pause_duration_seconds } now

/-- `TimerCore._transition_to_work`: switch back to the WORK phase with the
configured work duration (not auto-started). -/
def transition_to_work (s : TimerCore) : TimerCore :=
  { s with current_phase := .work, duration := s.work_duration_seconds }

/-- `TimerCore.update`: when finished, stop the timer, fire the completed
phase's callback (if registered) and perform the phase transition.  Returns
the new state together with the number of invocations of the work-complete
and of the pause-complete callback performed by this call. -/
def update (s : TimerCore) (now : ℚ) : TimerCore × ℕ × ℕ :=
  if s.is_finished now then
    let s1 := { s with running := false, target_end_time := none }
    match s1.current_phase with
    | .work =>
      let workFired := if s1.on_work_complete then 1 else 0
      if s1.pause_duration_seconds > 0 then
        (s1.transition_to_pause now, workFired, 0)
      else
        (s1, workFired, 0)
    | .pause =>
      let pauseFired := if s1.on_pause_complete then 1 else 0
      (s1.transition_to_work, 0, pauseFired)
  else (s, 0, 0)

/-- `TimerCore.set_work_complete_callback` (registration only). -/
def set_work_complete_callback (s : TimerCore) : TimerCore :=
  { s with on_work_complete := true }

/-- `TimerCore.set_pause_complete_callback` (registration only). -/
def set_pause_complete_callback (s : TimerCore) : TimerCore :=
  { s with on_pause_complete := true }

end TimerCore

/-- The public operations on a `TimerCore`, each carrying the clock reading
it performs. -/
inductive Op where
  | op_start (now : ℚ)
  | op_pause (now : ℚ)
  | op_toggle (now : ℚ)
  | op_reset
  | op_set_work (minutes : ℤ)
  | op_set_pause (minutes : ℤ)
  | op_update (now : ℚ)
  | op_set_work_cb
  | op_set_pause_cb

/-- Apply one operation; the two counters are the callback invocations it
performed (only `update` can invoke callbacks). -/
def applyOp (s : TimerCore) : Op → TimerCore × ℕ × ℕ
  | .op_start now => (s.start now, 0, 0)
  | .op_pause now => (s.pause now, 0, 0)
  | .op_toggle now => (s.toggle now, 0, 0)
  | .op_reset => (s.reset, 0, 0)
  | .op_set_work m => (s.set_work_duration m, 0, 0)
  | .op_set_pause m => (s.set_pause_duration m, 0, 0)
  | .op_update now => s.update now
  | .op_set_work_cb => (s.set_work_complete_callback, 0, 0)
  | .op_set_pause_cb => (s.set_pause_complete_callback, 0, 0)

/-- Run a sequence of operations, accumulating callback invocation counts. -/
def run (s : TimerCore) : List Op → TimerCore × ℕ × ℕ
  | [] => (s, 0, 0)
  | o :: os =>
    let r1 := applyOp s o
    let r2 := run r1.1 os
    (r2.1, r1.2.1 + r2.2.1, r1.2.2 + r2.2.2)

/-- States reachable from a start-up state: the app constructs
`TimerCore(work_duration_seconds = custom_minutes * 60,
pause_duration_seconds = pause_minutes * 60)` with `custom_minutes > 0` and
`pause_minutes ≥ 0` (guaranteed by the settings getters), then applies
operations. -/
inductive Reachable : TimerCore → Prop where
  | init (w p : ℤ) (hw : 0 < w) (hp : 0 ≤ p) : Reachable (TimerCore.init w p)
  | step {s : TimerCore} (h : Reachable s) (op : Op) : Reachable (applyOp s op).1

/-! ## Arithmetic helper lemmas -/

theorem pyint_intCast (n : ℤ) : pyint (n : ℚ) = n := by
  unfold pyint
  by_cases h : (0 : ℚ) ≤ (n : ℚ)
  · simp [h]
  · rw [if_neg h]
    rw [show (-(n : ℚ)) = ((-n : ℤ) : ℚ) by push_cast; ring, Int.floor_intCast]
    ring

theorem max_zero_pyint (q : ℚ) : max 0 (pyint q) = max 0 ⌊q⌋ := by
  unfold pyint
  by_cases h : 0 ≤ q
  · simp [h]
  · rw [if_neg h]
    push_neg at h
    have h1 : ⌊q⌋ ≤ 0 := by
      have h0 : ⌊q⌋ ≤ ⌊(0 : ℚ)⌋ := Int.floor_le_floor h.le
      simpa using h0
    have h2 : 0 ≤ ⌊-q⌋ := Int.floor_nonneg.mpr (by linarith)
    omega

/-! ## Work-phase expiry (C1, C2, C10) -/

/-- **C1.** From a running WORK state with positive pause duration, zero
remaining time and the work-complete callback registered, one `update` call
invokes the work-complete callback exactly once, never the pause-complete
callback, and leaves the machine in the PAUSE phase, running, with `duration`
set to the pause duration and remaining time equal to it. -/
theorem update_work_expiry_starts_pause (s : TimerCore) (now : ℚ)
    (hphase : s.current_phase = .work) (hrun : s.running = true)
    (hp : 0 < s.pause_duration_seconds)
    (hleft : s.get_time_left now = 0)
    (hcb : s.on_work_complete = true) :
    (s.update now).2.1 = 1 ∧ (s.update now).2.2 = 0 ∧
    (s.update now).1.current_phase = .pause ∧
    (s.update now).1.running = true ∧
    (s.update now).1.duration = s.pause_duration_seconds ∧
    (s.update now).1.get_time_left now = s.pause_duration_seconds := by
  have hfin : s.is_finished now = true := by
    simp [TimerCore.is_finished, hrun, hleft]
  simp only [TimerCore.update, hfin, if_true, hphase, hcb,
    TimerCore.transition_to_pause, TimerCore.start, TimerCore.get_time_left, hp]
  refine ⟨trivial, trivial, trivial, trivial, trivial, ?_⟩
  show max 0 (pyint (now + (s.pause_duration_seconds : ℚ) - now)) =
    s.pause_duration_seconds
  rw [show now + (s.pause_duration_seconds : ℚ) - now =
    (s.pause_duration_seconds : ℚ) by ring, pyint_intCast]
  omega

/-- Witness for C1 at a concrete input: a fresh 25-minute work timer with a
5-minute pause, started at time 0, updated at time 1500. -/
theorem update_work_expiry_starts_pause_witness :
    (let s := ((TimerCore.init 1500 300).set_work_complete_callback).start 0
     (s.update 1500).2.1 = 1 ∧ (s.update 1500).2.2 = 0 ∧
     (s.update 1500).1.current_phase = .pause ∧
     (s.update 1500).1.running = true ∧
     (s.update 1500).1.duration = s.pause_duration_seconds ∧
     (s.update 1500).1.get_time_left 1500 = s.pause_duration_seconds) :=
  update_work_expiry_starts_pause
    (((TimerCore.init 1500 300).set_work_complete_callback).start 0) 1500
    (by simp [TimerCore.init, TimerCore.set_work_complete_callback,
      TimerCore.start, TimerCore.get_time_left])
    (by simp [TimerCore.init, TimerCore.set_work_complete_callback,
      TimerCore.start, TimerCore.get_time_left])
    (by simp [TimerCore.init, TimerCore.set_work_complete_callback,
      TimerCore.start])
    (by simp [TimerCore.init, TimerCore.set_work_complete_callback,
      TimerCore.start, TimerCore.get_time_left, pyint])
    (by simp [TimerCore.init, TimerCore.set_work_complete_callback,
      TimerCore.start])

/-! ## start idempotence (C6), reset (C7), invalid inputs (C8) -/

/-- **C6.** `start` is idempotent: a second `start`, at any clock reading,
leaves the state (including the target timestamp) exactly as after the first
call; in particular `start` on a running timer is a no-op. -/
theorem start_idempotent (s : TimerCore) (now1 now2 : ℚ) :
    (s.start now1).start now2 = s.start now1 := by
  by_cases h : s.running = false
  · simp [TimerCore.start, h]
  · simp [TimerCore.start, h]

/-- **C7.** After `reset`, the remaining time equals the configured work
duration, the phase is WORK, the timer is stopped with the target cleared,
and no completion callback is invoked. -/
theorem reset_spec (s : TimerCore) (d : ℤ) (now : ℚ)
    (hd : s.work_duration_seconds = d) (hpos : 0 < d) :
    s.reset.get_time_left now = d ∧
    s.reset.current_phase = .work ∧
    s.reset.running = false ∧
    s.reset.target_end_time = none ∧
    applyOp s .op_reset = (s.reset, 0, 0) := by
  refine ⟨?_, rfl, rfl, rfl, rfl⟩
  simp [TimerCore.reset, TimerCore.get_time_left, hd]

/-- Witness for C7 at a concrete input: a fresh 25-minute timer that was
started and then reset. -/
theorem reset_spec_witness :
    (let s := ((TimerCore.init 1500 300).start 0)
     s.reset.get_time_left 7 = 1500 ∧
     s.reset.current_phase = .work ∧
     s.reset.running = false ∧
     s.reset.target_end_time = none ∧
     applyOp s .op_reset = (s.reset, 0, 0)) :=
  reset_spec ((TimerCore.init 1500 300).start 0) 1500 7 (by decide) (by decide)

/-- **C8.** `set_work_duration` with non-positive minutes and
`set_pause_duration` with negative minutes are rejected as no-ops: the whole
state is unchanged (and, being total functions, they raise nothing). -/
theorem invalid_duration_inputs_noop (s : TimerCore) (m k : ℤ)
    (hm : m ≤ 0) (hk : k < 0) :
    s.set_work_duration m = s ∧ s.set_pause_duration k = s := by
  constructor
  · simp [TimerCore.set_work_duration, not_lt.mpr hm]
  · simp [TimerCore.set_pause_duration, not_le.mpr hk]

/-- Witness for C8 at a concrete input. -/
theorem invalid_duration_inputs_noop_witness :
    (TimerCore.init 1500 300).set_work_duration 0 = TimerCore.init 1500 300 ∧
    (TimerCore.init 1500 300).set_pause_duration (-2) = TimerCore.init 1500 300 :=
  invalid_duration_inputs_noop (TimerCore.init 1500 300) 0 (-2)
    (by decide) (by decide)

/-! ## Cached snapshot after disabled-pause expiry (C10) -/

/-- **C10.** When a running WORK phase expires with the pause disabled,
`update` clears `running` and the target without touching the cached
`duration`, so every later `get_time_left` returns that snapshot — in
particular it is not 0 whenever the snapshot was positive (e.g. a fresh
25-minute timer run to zero displays 25:00 again). -/
theorem update_disabled_pause_keeps_snapshot (s : TimerCore) (now now2 : ℚ)
    (hphase : s.current_phase = .work) (hrun : s.running = true)
    (hp : s.pause_duration_seconds = 0)
    (hleft : s.get_time_left now = 0) :
    (s.update now).1.duration = s.duration ∧
    (s.update now).1.running = false ∧
    (s.update now).1.get_time_left now2 = s.duration ∧
    (0 < s.duration → (s.update now).1.get_time_left now2 ≠ 0) := by
  have hfin : s.is_finished now = true := by
    simp [TimerCore.is_finished, hrun, hleft]
  simp only [TimerCore.update, hfin, if_true, hphase, hp,
    TimerCore.get_time_left]
  norm_num
  omega

/-- Witness for C10 at a concrete input: a fresh 25-minute timer with pause
disabled, started at 0 and expiring at 1500; afterwards the display reads the
cached 1500 seconds, not 0. -/
theorem update_disabled_pause_keeps_snapshot_witness :
    (let s := (TimerCore.init 1500 0).start 0
     (s.update 1500).1.duration = s.duration ∧
     (s.update 1500).1.running = false ∧
     (s.update 1500).1.get_time_left 1600 = s.duration ∧
     (0 < s.duration → (s.update 1500).1.get_time_left 1600 ≠ 0)) :=
  update_disabled_pause_keeps_snapshot ((TimerCore.init 1500 0).start 0) 1500 1600
    (by simp [TimerCore.init, TimerCore.start])
    (by simp [TimerCore.init, TimerCore.start])
    (by simp [TimerCore.init, TimerCore.start])
    (by simp [TimerCore.init, TimerCore.start, TimerCore.get_time_left, pyint])

/-! ## Duration changes in the active phase (C3) -/

/-- **C3 counterexample.** The claim that `set_work_duration m` in the WORK
phase makes `get_time_left` equal to `m * 60` "whether running or not" fails
on a running timer: a fresh 25-minute timer started at 0 keeps a remaining
time of 1500 s (derived from the unchanged target timestamp), not 60 s,
after `set_work_duration 1`. -/
theorem set_work_duration_live_remaining_counterexample :
    ¬ ((((TimerCore.init 1500 300).start 0).set_work_duration 1).get_time_left 0
        = 1 * 60) := by
  have h : (((TimerCore.init 1500 300).start 0).set_work_duration 1).get_time_left 0
      = 1500 := by
    simp [TimerCore.init, TimerCore.start, TimerCore.set_work_duration,
      TimerCore.get_time_left, pyint]
  rw [h]
  decide

/-- **C3 (amended).** `set_work_duration m` (m > 0) in the WORK phase sets the
cached `duration` to `m * 60`, so `get_time_left` returns `m * 60` whenever
the timer is not running; symmetrically `set_pause_duration k` (k ≥ 0) in the
PAUSE phase sets it to `k * 60`.  (While running, `get_time_left` keeps being
derived from the unchanged target timestamp.) -/
theorem set_duration_active_phase (s : TimerCore) (m k : ℤ) (now : ℚ)
    (hm : 0 < m) (hk : 0 ≤ k) :
    (s.current_phase = .work →
      (s.set_work_duration m).duration = m * 60 ∧
      (s.running = false → (s.set_work_duration m).get_time_left now = m * 60)) ∧
    (s.current_phase = .pause →
      (s.set_pause_duration k).duration = k * 60 ∧
      (s.running = false → (s.set_pause_duration k).get_time_left now = k * 60)) := by
  constructor
  · intro hph
    constructor
    · simp [TimerCore.set_work_duration, hm, hph]
    · intro hrun
      simp [TimerCore.set_work_duration, hm, hph, TimerCore.get_time_left, hrun]
  · intro hph
    constructor
    · simp [TimerCore.set_pause_duration, hk, hph]
    · intro hrun
      simp [TimerCore.set_pause_duration, hk, hph, TimerCore.get_time_left, hrun]

/-- Witness for the amended C3 at a concrete input. -/
theorem set_duration_active_phase_witness :
    (let s := TimerCore.init 1500 300
     (s.current_phase = Phase.work →
       (s.set_work_duration 10).duration = 10 * 60 ∧
       (s.running = false → (s.set_work_duration 10).get_time_left 0 = 10 * 60)) ∧
     (s.current_phase = Phase.pause →
       (s.set_pause_duration 3).duration = 3 * 60 ∧
       (s.running = false → (s.set_pause_duration 3).get_time_left 0 = 3 * 60))) :=
  set_duration_active_phase (TimerCore.init 1500 300) 10 3 0
    (by decide) (by decide)

/-! ## The state invariant of reachable states (C4, C5) -/

/-- Invariant maintained by every operation: the timer is running exactly
when the target timestamp is set, the cached duration is non-negative, the
configured work duration is positive and the configured pause duration
non-negative. -/
def Inv (s : TimerCore) : Prop :=
  (s.running = true ↔ s.target_end_time ≠ none) ∧
  0 ≤ s.duration ∧ 0 < s.work_duration_seconds ∧ 0 ≤ s.pause_duration_seconds

theorem get_time_left_nonneg (s : TimerCore) (now : ℚ) (h : 0 ≤ s.duration) :
    0 ≤ s.get_time_left now := by
  unfold TimerCore.get_time_left
  by_cases hr : s.running = false
  · simpa [hr] using h
  · cases ht : s.target_end_time with
    | none => simpa [hr, ht] using h
    | some t => simp [hr, ht, le_max_left]

theorem inv_init (w p : ℤ) (hw : 0 < w) (hp : 0 ≤ p) :
    Inv (TimerCore.init w p) := by
  refine ⟨by simp [TimerCore.init], ?_, hw, hp⟩
  simpa [TimerCore.init] using hw.le

theorem inv_start (s : TimerCore) (now : ℚ) (h : Inv s) : Inv (s.start now) := by
  unfold TimerCore.start
  by_cases hr : s.running = false
  · simp only [hr, if_true]
    exact ⟨by simp, h.2.1, h.2.2⟩
  · simpa [hr] using h

theorem inv_pause (s : TimerCore) (now : ℚ) (h : Inv s) : Inv (s.pause now) := by
  unfold TimerCore.pause
  by_cases hr : s.running = true
  · simp only [hr, if_true]
    exact ⟨by simp, get_time_left_nonneg s now h.2.1, h.2.2.1, h.2.2.2⟩
  · simpa [hr] using h

theorem inv_toggle (s : TimerCore) (now : ℚ) (h : Inv s) : Inv (s.toggle now) := by
  unfold TimerCore.toggle
  by_cases hr : s.running = true
  · simpa [hr] using inv_pause s now h
  · simpa [hr] using inv_start s now h

theorem inv_reset (s : TimerCore) (h : Inv s) : Inv s.reset := by
  exact ⟨by simp [TimerCore.reset], by simpa [TimerCore.reset] using h.2.2.1.le,
    h.2.2.1, h.2.2.2⟩

theorem inv_set_work (s : TimerCore) (m : ℤ) (h : Inv s) :
    Inv (s.set_work_duration m) := by
  unfold TimerCore.set_work_duration
  by_cases hm : m > 0
  · by_cases hph : s.current_phase = Phase.work
    · simp only [hm, if_true, hph]
      refine ⟨by simpa using h.1, ?_, ?_, h.2.2.2⟩
      · show (0 : ℤ) ≤ m * 60
        omega
      · show (0 : ℤ) < m * 60
        omega
    · simp only [hm, if_true, hph]
      refine ⟨by simpa using h.1, h.2.1, ?_, h.2.2.2⟩
      show (0 : ℤ) < m * 60
      omega
  · simpa [hm] using h

theorem inv_set_pause (s : TimerCore) (m : ℤ) (h : Inv s) :
    Inv (s.set_pause_duration m) := by
  unfold TimerCore.set_pause_duration
  by_cases hm : m ≥ 0
  · by_cases hph : s.current_phase = Phase.pause
    · simp only [hm, if_true, hph]
      refine ⟨by simpa using h.1, ?_, h.2.2.1, ?_⟩
      · show (0 : ℤ) ≤ m * 60
        omega
      · show (0 : ℤ) ≤ m * 60
        omega
    · simp only [hm, if_true, hph]
      refine ⟨by simpa using h.1, h.2.1, h.2.2.1, ?_⟩
      show (0 : ℤ) ≤ m * 60
      omega
  · simpa [hm] using h

theorem inv_update (s : TimerCore) (now : ℚ) (h : Inv s) :
    Inv (s.update now).1 := by
  unfold TimerCore.update
  by_cases hfin : s.is_finished now = true
  · simp only [hfin, if_true]
    have h1 : Inv { s with running := false, target_end_time := none } :=
      ⟨by simp, h.2.1, h.2.2⟩
    cases hph : s.current_phase with
    | work =>
      by_cases hp : s.pause_duration_seconds > 0
      · simp only [hph, hp, if_true]
        exact inv_start _ now ⟨by simp, h.2.2.2, h.2.2⟩
      · simp only [hph, hp, if_false]
        exact h1
    | pause =>
      simp only [hph]
      exact ⟨by simp [TimerCore.transition_to_work], h.2.2.1.le, h.2.2⟩
  · simpa [hfin] using h

theorem inv_applyOp (s : TimerCore) (op : Op) (h : Inv s) :
    Inv (applyOp s op).1 := by
  cases op with
  | op_start now => exact inv_start s now h
  | op_pause now => exact inv_pause s now h
  | op_toggle now => exact inv_toggle s now h
  | op_reset => exact inv_reset s h
  | op_set_work m => exact inv_set_work s m h
  | op_set_pause m => exact inv_set_pause s m h
  | op_update now => exact inv_update s now h
  | op_set_work_cb =>
    exact ⟨by simpa [applyOp, TimerCore.set_work_complete_callback] using h.1,
      h.2.1, h.2.2⟩
  | op_set_pause_cb =>
    exact ⟨by simpa [applyOp, TimerCore.set_pause_complete_callback] using h.1,
      h.2.1, h.2.2⟩

theorem inv_of_reachable {s : TimerCore} (h : Reachable s) : Inv s := by
  induction h with
  | init w p hw hp => exact inv_init w p hw hp
  | step hr op ih => exact inv_applyOp _ op ih

/-- **C4.** In every reachable state, `get_time_left` is derived:
`max(0, ⌊target_end_time - now⌋)` when running (the target is then set),
the cached `duration` snapshot when stopped; its result is never negative. -/
theorem get_time_left_derived (s : TimerCore) (now : ℚ) (h : Reachable s) :
    (s.running = true → ∃ t, s.target_end_time = some t ∧
      s.get_time_left now = max 0 ⌊t - now⌋) ∧
    (s.running = false → s.get_time_left now = s.duration) ∧
    0 ≤ s.get_time_left now := by
  have hinv := inv_of_reachable h
  refine ⟨?_, ?_, get_time_left_nonneg s now hinv.2.1⟩
  · intro hr
    have ht := hinv.1.mp hr
    cases hte : s.target_end_time with
    | none => exact absurd hte ht
    | some t =>
      exact ⟨t, rfl, by simp [TimerCore.get_time_left, hr, hte, max_zero_pyint]⟩
  · intro hr
    simp [TimerCore.get_time_left, hr]

/-- Witness for C4 at a concrete input: the reachable state obtained by
starting a fresh 25/5-minute timer at time 0, queried at time 100. -/
theorem get_time_left_derived_witness :
    (let s := (applyOp (TimerCore.init 1500 300) (Op.op_start 0)).1
     (s.running = true → ∃ t, s.target_end_time = some t ∧
       s.get_time_left 100 = max 0 ⌊t - (100 : ℚ)⌋) ∧
     (s.running = false → s.get_time_left 100 = s.duration) ∧
     0 ≤ s.get_time_left 100) :=
  get_time_left_derived (applyOp (TimerCore.init 1500 300) (Op.op_start 0)).1 100
    (Reachable.step (Reachable.init 1500 300 (by decide) (by decide)) (Op.op_start 0))

/-- **C5.** In every reachable state the timer is running exactly when the
absolute target timestamp is set: exactly one of the target and the cached
snapshot is authoritative. -/
theorem running_iff_target_set (s : TimerCore) (h : Reachable s) :
    s.running = true ↔ s.target_end_time ≠ none :=
  (inv_of_reachable h).1

/-- Witness for C5 at a concrete input: a fresh timer started at time 0 and
paused at time 60. -/
theorem running_iff_target_set_witness :
    (let s := (applyOp (applyOp (TimerCore.init 1500 300) (Op.op_start 0)).1
        (Op.op_pause 60)).1
     s.running = true ↔ s.target_end_time ≠ none) :=
  running_iff_target_set
    (applyOp (applyOp (TimerCore.init 1500 300) (Op.op_start 0)).1 (Op.op_pause 60)).1
    (Reachable.step
      (Reachable.step (Reachable.init 1500 300 (by decide) (by decide)) (Op.op_start 0))
      (Op.op_pause 60))

/-! ## Disabled pause: the pause phase is never entered (C2) -/

/-- A state whose pause phase is disabled and which sits in the WORK phase. -/
def NoPauseInv (s : TimerCore) : Prop :=
  s.pause_duration_seconds = 0 ∧ s.current_phase = .work

/-- Operations that keep the configured pause duration at zero: any
`set_pause_duration` call must carry non-positive minutes. -/
def keepsPauseDisabled : Op → Bool
  | .op_set_pause m => decide (m ≤ 0)
  | _ => true

theorem noPause_step (s : TimerCore) (op : Op)
    (h : NoPauseInv s) (hop : keepsPauseDisabled op = true) :
    NoPauseInv (applyOp s op).1 ∧ (applyOp s op).2.2 = 0 := by
  cases op with
  | op_start now =>
    refine ⟨?_, rfl⟩
    show NoPauseInv (s.start now)
    unfold TimerCore.start
    split
    · exact ⟨h.1, h.2⟩
    · exact h
  | op_pause now =>
    refine ⟨?_, rfl⟩
    show NoPauseInv (s.pause now)
    unfold TimerCore.pause
    split
    · exact ⟨h.1, h.2⟩
    · exact h
  | op_toggle now =>
    refine ⟨?_, rfl⟩
    show NoPauseInv (s.toggle now)
    unfold TimerCore.toggle TimerCore.pause TimerCore.start
    split
    · exact ⟨h.1, h.2⟩
    · split
      · exact ⟨h.1, h.2⟩
      · exact h
  | op_reset => exact ⟨⟨h.1, rfl⟩, rfl⟩
  | op_set_work m =>
    refine ⟨?_, rfl⟩
    show NoPauseInv (s.set_work_duration m)
    unfold TimerCore.set_work_duration
    split
    · dsimp only
      split
      · exact ⟨h.1, h.2⟩
      · exact ⟨h.1, h.2⟩
    · exact h
  | op_set_pause m =>
    have hm : m ≤ 0 := by simpa [keepsPauseDisabled] using hop
    refine ⟨?_, rfl⟩
    show NoPauseInv (s.set_pause_duration m)
    unfold TimerCore.set_pause_duration
    split
    · dsimp only
      split
      · exact ⟨by show m * 60 = 0; omega, h.2⟩
      · exact ⟨by show m * 60 = 0; omega, h.2⟩
    · exact h
  | op_update now =>
    show NoPauseInv (s.update now).1 ∧ (s.update now).2.2 = 0
    by_cases hfin : s.is_finished now = true
    · have hupd : s.update now =
          ({ s with running := false, target_end_time := none },
            (if s.on_work_complete then 1 else 0), 0) := by
        simp [TimerCore.update, hfin, h.1, h.2]
      rw [hupd]
      exact ⟨⟨h.1, h.2⟩, rfl⟩
    · have hupd : s.update now = (s, 0, 0) := by
        simp [TimerCore.update, hfin]
      rw [hupd]
      exact ⟨h, rfl⟩
  | op_set_work_cb => exact ⟨⟨h.1, h.2⟩, rfl⟩
  | op_set_pause_cb => exact ⟨⟨h.1, h.2⟩, rfl⟩

theorem run_pause_events_zero (ops : List Op) : ∀ s : TimerCore,
    NoPauseInv s → (∀ op ∈ ops, keepsPauseDisabled op = true) →
    (run s ops).2.2 = 0 := by
  induction ops with
  | nil => intro s h hops; rfl
  | cons o os ih =>
    intro s h hops
    have h1 := noPause_step s o h (hops o (List.mem_cons_self o os))
    have h2 := ih (applyOp s o).1 h1.1
      (fun op hop => hops op (List.mem_cons_of_mem o hop))
    simp [run, h1.2, h2]

/-- **C2.** From a running WORK state with the pause disabled and zero
remaining time, one `update` leaves the machine in the WORK phase, stopped,
performs no pause transition, and the pause-complete callback is invoked
neither by this call nor by any later operation sequence that keeps the
pause duration at zero. -/
theorem update_work_expiry_pause_disabled (s : TimerCore) (now : ℚ)
    (ops : List Op)
    (hphase : s.current_phase = .work) (hrun : s.running = true)
    (hp : s.pause_duration_seconds = 0)
    (hleft : s.get_time_left now = 0)
    (hops : ∀ op ∈ ops, keepsPauseDisabled op = true) :
    (s.update now).1.current_phase = .work ∧
    (s.update now).1.running = false ∧
    (s.update now).2.2 = 0 ∧
    (run (s.update now).1 ops).2.2 = 0 := by
  have hfin : s.is_finished now = true := by
    simp [TimerCore.is_finished, hrun, hleft]
  have hupd : s.update now =
      ({ s with running := false, target_end_time := none },
        (if s.on_work_complete then 1 else 0), 0) := by
    simp [TimerCore.update, hfin, hphase, hp]
  rw [hupd]
  exact ⟨hphase, rfl, rfl,
    run_pause_events_zero ops _ ⟨hp, hphase⟩ hops⟩

/-- Witness for C2 at a concrete input: a 1-minute work timer with the pause
disabled, started at 0, updated at 60, followed by further operations that
keep the pause duration at zero. -/
theorem update_work_expiry_pause_disabled_witness :
    (let s := (TimerCore.init 60 0).start 0
     let ops := [Op.op_start 70, Op.op_update 80, Op.op_reset, Op.op_set_pause 0]
     (s.update 60).1.current_phase = .work ∧
     (s.update 60).1.running = false ∧
     (s.update 60).2.2 = 0 ∧
     (run (s.update 60).1 ops).2.2 = 0) :=
  update_work_expiry_pause_disabled ((TimerCore.init 60 0).start 0) 60
    [Op.op_start 70, Op.op_update 80, Op.op_reset, Op.op_set_pause 0]
    (by simp [TimerCore.init, TimerCore.start])
    (by simp [TimerCore.init, TimerCore.start])
    (by simp [TimerCore.init, TimerCore.start])
    (by simp [TimerCore.init, TimerCore.start, TimerCore.get_time_left, pyint])
    (by decide)

/-! ## Settings persistence (C9)

`SettingsManager` (`src/config/settings_manager.py`) keeps its state in a
`configparser.ConfigParser`: ordered sections, each an ordered list of
key/value string pairs.  `save_settings` renders this state to the INI text
lines `configparser.write` produces (`[section]`, then `key = value` per
entry, then a blank line); `load_settings` parses such lines back.  The
repository only ever stores keys that are non-empty, lowercase and free of
delimiters, and values without surrounding whitespace; the well-formedness
predicate below captures exactly the conditions under which the INI rendering
is invertible. -/

/-- A line of the INI file. -/
abbrev Line := List Char

/-- The in-memory `ConfigParser` state: ordered sections with ordered
key/value pairs. -/
abbrev ConfigData := List (List Char × List (List Char × List Char))

/-- Python `str.lower` on an ASCII character. -/
def lowerChar (c : Char) : Char :=
  if 'A' ≤ c ∧ c ≤ 'Z' then Char.ofNat (c.toNat + 32) else c

/-- Strip leading spaces. -/
def trimLeft (l : List Char) : List Char := l.dropWhile (fun c => c == ' ')

/-- Strip trailing spaces. -/
def trimRight (l : List Char) : List Char := (trimLeft l.reverse).reverse

/-- Python `str.strip` (for the space-only values at hand). -/
def trim (l : List Char) : List Char := trimLeft (trimRight l)

/-- The `key = value` rendering `configparser.write` uses. -/
def writeKV (kv : List Char × List Char) : Line :=
  kv.1 ++ ' ' :: '=' :: ' ' :: kv.2

/-- One section as `configparser.write` renders it: `[name]` header, one
`key = value` line per entry, then a blank separator line. -/
def writeSection (sec : List Char × List (List Char × List Char)) : List Line :=
  ('[' :: sec.1 ++ [']']) :: (sec.2.map writeKV ++ [[]])

/-- `SettingsManager.save_settings`: render the whole state. -/
def writeLines : ConfigData → List Line
  | [] => []
  | sec :: rest => writeSection sec ++ writeLines rest

/-- A `[section]` header line: bracketed, at least two characters. -/
def isHeaderLine (l : Line) : Bool :=
  decide (2 ≤ l.length) && (l.head? == some '[') && (l.getLast? == some ']')

/-- The name inside a header line. -/
def headerName (l : Line) : List Char := (l.drop 1).dropLast

/-- Parse a `key = value` line the way `configparser` does: split at the
first delimiter, strip the key's trailing and the value's surrounding
whitespace. -/
def parseKV (l : Line) : List Char × List Char :=
  (trimRight (l.takeWhile (fun c => !(c == '='))),
   trim ((l.dropWhile (fun c => !(c == '='))).drop 1))

/-- Append the section being filled, if any, to the completed ones. -/
def flushCur : Option (List Char × List (List Char × List Char)) → ConfigData →
    ConfigData
  | none, done => done
  | some sec, done => done ++ [sec]

/-- One step of the line parser: a header starts a new section, a line with a
delimiter adds a key/value pair to the current section, anything else
(e.g. a blank line) is skipped. -/
def readStep (acc : ConfigData × Option (List Char × List (List Char × List Char)))
    (l : Line) : ConfigData × Option (List Char × List (List Char × List Char)) :=
  if isHeaderLine l then
    (flushCur acc.2 acc.1, some (headerName l, []))
  else if l.contains '=' then
    match acc.2 with
    | none => acc
    | some sec => (acc.1, some (sec.1, sec.2 ++ [parseKV l]))
  else acc

/-- `SettingsManager.load_settings`: parse the rendered lines back. -/
def readLines (ls : List Line) : ConfigData :=
  let r := ls.foldl readStep ([], none)
  flushCur r.2 r.1

/-- A key as the repository stores them: non-empty, not starting with `[`,
and free of delimiters, spaces and newlines. -/
def wfKey (k : List Char) : Prop :=
  k ≠ [] ∧ k.head? ≠ some '[' ∧
    ∀ c ∈ k, c ≠ '=' ∧ c ≠ ':' ∧ c ≠ ' ' ∧ c ≠ '\n'

/-- A value as the repository stores them: no surrounding spaces, no
newline. -/
def wfVal (v : List Char) : Prop :=
  v.head? ≠ some ' ' ∧ v.getLast? ≠ some ' ' ∧ '\n' ∉ v

/-- Well-formed `ConfigParser` state: every stored key and value is
invertible under the INI rendering. -/
def WFConfig (c : ConfigData) : Prop :=
  ∀ sec ∈ c, ('\n' ∉ sec.1) ∧ ∀ kv ∈ sec.2, wfKey kv.1 ∧ wfVal kv.2

instance (k : List Char) : Decidable (wfKey k) := by
  unfold wfKey; infer_instance

instance (v : List Char) : Decidable (wfVal v) := by
  unfold wfVal; infer_instance

instance (c : ConfigData) : Decidable (WFConfig c) := by
  unfold WFConfig; infer_instance

/-! ### The INI rendering is invertible on well-formed states -/

theorem trimLeft_eq_self (l : List Char) (h : l.head? ≠ some ' ') :
    trimLeft l = l := by
  cases l with
  | nil => rfl
  | cons a t =>
    have ha : (a == ' ') = false := by
      simp only [List.head?_cons, ne_eq, Option.some.injEq] at h
      simpa using h
    simp [trimLeft, ha]

theorem dropWhile_space_all_ne (l : List Char) (h : ∀ c ∈ l, c ≠ ' ') :
    l.dropWhile (fun c => c == ' ') = l := by
  cases l with
  | nil => rfl
  | cons a t =>
    have ha : (a == ' ') = false := by simpa using h a (by simp)
    simp [List.dropWhile_cons, ha]

theorem trimRight_append_space (k : List Char) (hk : ∀ c ∈ k, c ≠ ' ') :
    trimRight (k ++ [' ']) = k := by
  unfold trimRight trimLeft
  rw [List.reverse_append]
  simp only [List.reverse_cons, List.reverse_nil, List.nil_append,
    List.singleton_append, List.dropWhile_cons]
  simp only [beq_self_eq_true, if_true]
  rw [dropWhile_space_all_ne _ (fun c hc => hk c (List.mem_reverse.mp hc)),
    List.reverse_reverse]

theorem trim_space_cons (v : List Char) (h1 : v.head? ≠ some ' ')
    (h2 : v.getLast? ≠ some ' ') : trim (' ' :: v) = v := by
  cases v with
  | nil => rfl
  | cons b t =>
    have hR : trimRight (' ' :: b :: t) = ' ' :: b :: t := by
      unfold trimRight
      rw [trimLeft_eq_self, List.reverse_reverse]
      rw [List.head?_reverse]
      simpa [List.getLast?_cons_cons] using h2
    unfold trim
    rw [hR]
    unfold trimLeft
    rw [List.dropWhile_cons]
    simp only [beq_self_eq_true, if_true]
    exact trimLeft_eq_self _ h1

theorem isHeaderLine_header (n : List Char) :
    isHeaderLine ('[' :: n ++ [']']) = true := by
  have h1 : ('[' :: n ++ [']']).getLast? = some ']' := by
    exact List.getLast?_concat _
  unfold isHeaderLine
  simp only [h1]
  simp

theorem headerName_header (n : List Char) :
    headerName ('[' :: (n ++ [']'])) = n := by
  unfold headerName
  simp [List.dropLast_concat]

theorem isHeaderLine_writeKV (kv : List Char × List Char) (hk : wfKey kv.1) :
    isHeaderLine (writeKV kv) = false := by
  obtain ⟨hne, hhead, hchars⟩ := hk
  unfold isHeaderLine writeKV
  cases hc : kv.1 with
  | nil => exact absurd hc hne
  | cons a t =>
    have ha : (a == '[') = false := by
      have := hhead
      rw [hc] at this
      simpa using this
    simp [ha]

theorem contains_writeKV (kv : List Char × List Char) :
    (writeKV kv).contains '=' = true := by
  unfold writeKV
  exact List.elem_eq_true_of_mem (by simp)

theorem takeWhile_writeKV (k : List Char) (hk : ∀ c ∈ k, c ≠ '=')
    (sfx : List Char) :
    (k ++ ' ' :: '=' :: sfx).takeWhile (fun c => !(c == '=')) = k ++ [' '] := by
  induction k with
  | nil => rfl
  | cons a t ih =>
    have ha : (a == '=') = false := by simpa using hk a (by simp)
    simp only [List.cons_append, List.takeWhile_cons, ha]
    simpa using ih (fun c hc => hk c (by simp [hc]))

theorem dropWhile_writeKV (k : List Char) (hk : ∀ c ∈ k, c ≠ '=')
    (sfx : List Char) :
    (k ++ ' ' :: '=' :: sfx).dropWhile (fun c => !(c == '=')) = '=' :: sfx := by
  induction k with
  | nil => rfl
  | cons a t ih =>
    have ha : (a == '=') = false := by simpa using hk a (by simp)
    simp only [List.cons_append, List.dropWhile_cons, ha]
    simpa using ih (fun c hc => hk c (by simp [hc]))

theorem parseKV_writeKV (kv : List Char × List Char)
    (hk : wfKey kv.1) (hv : wfVal kv.2) : parseKV (writeKV kv) = kv := by
  obtain ⟨hne, hhead, hchars⟩ := hk
  obtain ⟨hv1, hv2, _⟩ := hv
  unfold parseKV writeKV
  rw [takeWhile_writeKV kv.1 (fun c hc => (hchars c hc).1),
    dropWhile_writeKV kv.1 (fun c hc => (hchars c hc).1)]
  simp only [List.drop_succ_cons, List.drop_zero]
  rw [trimRight_append_space kv.1 (fun c hc => (hchars c hc).2.2.1),
    trim_space_cons kv.2 hv1 hv2]

theorem readStep_kv (done : ConfigData)
    (sec : List Char × List (List Char × List Char))
    (kv : List Char × List Char) (hk : wfKey kv.1) (hv : wfVal kv.2) :
    readStep (done, some sec) (writeKV kv) = (done, some (sec.1, sec.2 ++ [kv])) := by
  unfold readStep
  have hmem : '=' ∈ writeKV kv := by unfold writeKV; simp
  simp [isHeaderLine_writeKV kv hk, parseKV_writeKV kv hk hv, hmem]

theorem foldl_readStep_kvs (kvs : List (List Char × List Char))
    (h : ∀ kv ∈ kvs, wfKey kv.1 ∧ wfVal kv.2) :
    ∀ (done : ConfigData) (n : List Char) (acc : List (List Char × List Char)),
    (kvs.map writeKV).foldl readStep (done, some (n, acc))
      = (done, some (n, acc ++ kvs)) := by
  induction kvs with
  | nil => intro done n acc; simp
  | cons kv rest ih =>
    intro done n acc
    have hkv := h kv (by simp)
    simp only [List.map_cons, List.foldl_cons]
    rw [readStep_kv done (n, acc) kv hkv.1 hkv.2,
      ih (fun x hx => h x (by simp [hx])) done n (acc ++ [kv])]
    simp

theorem foldl_readStep_section (sec : List Char × List (List Char × List Char))
    (hkvs : ∀ kv ∈ sec.2, wfKey kv.1 ∧ wfVal kv.2)
    (done : ConfigData) (cur : Option (List Char × List (List Char × List Char))) :
    (writeSection sec).foldl readStep (done, cur)
      = (flushCur cur done, some (sec.1, sec.2)) := by
  unfold writeSection
  rw [List.foldl_cons]
  have hhead : readStep (done, cur) ('[' :: sec.1 ++ [']'])
      = (flushCur cur done, some (sec.1, [])) := by
    unfold readStep
    rw [isHeaderLine_header]
    simp [headerName_header]
  rw [hhead, List.foldl_append,
    foldl_readStep_kvs sec.2 hkvs (flushCur cur done) sec.1 []]
  rfl

theorem readLines_writeLines_aux (c : ConfigData) (hc : WFConfig c) :
    ∀ (done : ConfigData) (cur : Option (List Char × List (List Char × List Char))),
    flushCur ((writeLines c).foldl readStep (done, cur)).2
        ((writeLines c).foldl readStep (done, cur)).1
      = flushCur cur done ++ c := by
  induction c with
  | nil => intro done cur; simp [writeLines]
  | cons sec rest ih =>
    intro done cur
    have hsec := hc sec (by simp)
    simp only [writeLines]
    rw [List.foldl_append, foldl_readStep_section sec hsec.2 done cur,
      ih (fun s hs => hc s (by simp [hs])) (flushCur cur done) (some (sec.1, sec.2))]
    simp [flushCur, List.append_assoc]

/-- The INI rendering of `configparser.write` is parsed back verbatim by
`configparser.read` on every well-formed settings state. -/
theorem readLines_writeLines (c : ConfigData) (hc : WFConfig c) :
    readLines (writeLines c) = c := by
  have h := readLines_writeLines_aux c hc [] none
  simpa [readLines, flushCur] using h

/-! ### The `SettingsManager` getters -/

/-- Modelled from the spec: `core/constants.py` is not in the sources and the
spec does not fix the default window position; the concrete value is
irrelevant to the properties proved here. -/
def DEFAULT_WINDOW_X : ℤ := 100

/-- Modelled from the spec: see `DEFAULT_WINDOW_X`. -/
def DEFAULT_WINDOW_Y : ℤ := 100

/-- Modelled from the spec: default font size (value not fixed by the spec,
irrelevant here). -/
def DEFAULT_FONT_SIZE : ℤ := 96

/-- Modelled from the spec: default work-phase color string (value not fixed
by the spec, irrelevant here). -/
def COLOR_WORK_TIMER_DEFAULT : List Char := "white".toList

/-- Modelled from the spec: default pause-phase color string. -/
def COLOR_PAUSE_TIMER_DEFAULT : List Char := "gray".toList

/-- Modelled from the spec: alert toggles default to true. -/
def DEFAULT_SHOW_WORK_ALERT : Bool := true

/-- Modelled from the spec: alert toggles default to true. -/
def DEFAULT_SHOW_PAUSE_ALERT : Bool := true

/-- Decimal digit test. -/
def isDigitChar (c : Char) : Bool := '0' ≤ c && c ≤ '9'

/-- Numeric value of a digit string. -/
def digitsToNat (l : List Char) : ℕ :=
  l.foldl (fun acc c => acc * 10 + (c.toNat - '0'.toNat)) 0

/-- Python `int(str)`: surrounding whitespace stripped, optional sign, then
digits; anything else raises `ValueError`, modelled as `none`. -/
def pyParseInt (v : List Char) : Option ℤ :=
  match trim v with
  | '-' :: ds =>
    if !ds.isEmpty && ds.all isDigitChar then some (-(digitsToNat ds : ℤ)) else none
  | '+' :: ds =>
    if !ds.isEmpty && ds.all isDigitChar then some (digitsToNat ds : ℤ) else none
  | ds =>
    if !ds.isEmpty && ds.all isDigitChar then some (digitsToNat ds : ℤ) else none

/-- `configparser.getboolean`: case-insensitive `1/yes/true/on` and
`0/no/false/off`; anything else raises `ValueError`, modelled as `none`. -/
def pyParseBool (v : List Char) : Option Bool :=
  let w := v.map lowerChar
  if w == "1".toList || w == "yes".toList || w == "true".toList || w == "on".toList then
    some true
  else if w == "0".toList || w == "no".toList || w == "false".toList || w == "off".toList then
    some false
  else none

/-- `ConfigParser.has_section`. -/
def has_section (c : ConfigData) (n : List Char) : Bool :=
  c.any (fun sec => sec.1 == n)

/-- `ConfigParser.get`: the stored string, `none` when section or option is
missing.  (The repository only uses lowercase keys, on which the parser's
`optionxform` is the identity.) -/
def get_opt (c : ConfigData) (n k : List Char) : Option (List Char) :=
  match c.find? (fun sec => sec.1 == n) with
  | none => none
  | some sec => (sec.2.find? (fun kv => kv.1 == k)).map (fun kv => kv.2)

/-- `ConfigParser.has_option`. -/
def has_option (c : ConfigData) (n k : List Char) : Bool := (get_opt c n k).isSome

/-- `SettingsManager.get_window_position`: both coordinates are read inside a
single `try`, so any missing option or parse failure yields the default
pair. -/
def get_window_position (c : ConfigData) : ℤ × ℤ :=
  if has_section c "Window".toList then
    match get_opt c "Window".toList "x".toList, get_opt c "Window".toList "y".toList with
    | some vx, some vy =>
      match pyParseInt vx, pyParseInt vy with
      | some x, some y => (x, y)
      | _, _ => (DEFAULT_WINDOW_X, DEFAULT_WINDOW_Y)
    | _, _ => (DEFAULT_WINDOW_X, DEFAULT_WINDOW_Y)
  else (DEFAULT_WINDOW_X, DEFAULT_WINDOW_Y)

/-- `SettingsManager.get_font_size`. -/
def get_font_size (c : ConfigData) : ℤ :=
  if has_section c "Display".toList then
    match get_opt c "Display".toList "font_size".toList with
    | some v =>
      match pyParseInt v with
      | some n => n
      | none => DEFAULT_FONT_SIZE
    | none => DEFAULT_FONT_SIZE
  else DEFAULT_FONT_SIZE

/-- `SettingsManager.get_font_path`. -/
def get_font_path (c : ConfigData) : Option (List Char) :=
  if has_section c "Display".toList && has_option c "Display".toList "font_path".toList then
    get_opt c "Display".toList "font_path".toList
  else none

/-- `SettingsManager.get_custom_duration_minutes`: positive values accepted,
everything else falls back to the default. -/
def get_custom_duration_minutes (c : ConfigData) : ℤ :=
  if has_section c "Timer".toList &&
      has_option c "Timer".toList "custom_duration_minutes".toList then
    match get_opt c "Timer".toList "custom_duration_minutes".toList with
    | some v =>
      match pyParseInt v with
      | some d => if d > 0 then d else DEFAULT_DURATION_MINUTES
      | none => DEFAULT_DURATION_MINUTES
    | none => DEFAULT_DURATION_MINUTES
  else DEFAULT_DURATION_MINUTES

/-- `SettingsManager.get_pause_duration_minutes`: non-negative values
accepted (0 disables the pause phase). -/
def get_pause_duration_minutes (c : ConfigData) : ℤ :=
  if has_section c "Timer".toList &&
      has_option c "Timer".toList "pause_duration_minutes".toList then
    match get_opt c "Timer".toList "pause_duration_minutes".toList with
    | some v =>
      match pyParseInt v with
      | some d => if d ≥ 0 then d else DEFAULT_PAUSE_DURATION_MINUTES
      | none => DEFAULT_PAUSE_DURATION_MINUTES
    | none => DEFAULT_PAUSE_DURATION_MINUTES
  else DEFAULT_PAUSE_DURATION_MINUTES

/-- `SettingsManager.get_work_timer_color`. -/
def get_work_timer_color (c : ConfigData) : List Char :=
  match get_opt c "Display".toList "work_timer_color".toList with
  | some v => v
  | none => COLOR_WORK_TIMER_DEFAULT

/-- `SettingsManager.get_pause_timer_color`. -/
def get_pause_timer_color (c : ConfigData) : List Char :=
  match get_opt c "Display".toList "pause_timer_color".toList with
  | some v => v
  | none => COLOR_PAUSE_TIMER_DEFAULT

/-- `SettingsManager.get_show_work_alert`: the `getboolean` call is not
guarded by a `try`, so an unparsable stored value propagates `ValueError`
(modelled as `none`). -/
def get_show_work_alert (c : ConfigData) : Option Bool :=
  match get_opt c "Alerts".toList "show_work_complete_alert".toList with
  | some v => pyParseBool v
  | none => some DEFAULT_SHOW_WORK_ALERT

/-- `SettingsManager.get_show_pause_alert`. -/
def get_show_pause_alert (c : ConfigData) : Option Bool :=
  match get_opt c "Alerts".toList "show_pause_complete_alert".toList with
  | some v => pyParseBool v
  | none => some DEFAULT_SHOW_PAUSE_ALERT

/-- `SettingsManager.get_always_on_top` (defaults to true). -/
def get_always_on_top (c : ConfigData) : Option Bool :=
  match get_opt c "Window".toList "always_on_top".toList with
  | some v => pyParseBool v
  | none => some true

/-- `SettingsManager._create_default_config`. -/
def defaultConfig : ConfigData :=
  [("Window".toList,
     [("x".toList, "100".toList), ("y".toList, "100".toList),
      ("always_on_top".toList, "True".toList)]),
   ("Display".toList,
     [("font_size".toList, "96".toList),
      ("work_timer_color".toList, "white".toList),
      ("pause_timer_color".toList, "gray".toList)]),
   ("Timer".toList,
     [("custom_duration_minutes".toList, "25".toList),
      ("pause_duration_minutes".toList, "5".toList)]),
   ("Alerts".toList,
     [("show_work_complete_alert".toList, "True".toList),
      ("show_pause_complete_alert".toList, "True".toList)])]

/-- **C9.** Saving a well-formed settings state and loading the written file
back reproduces the state verbatim, so every getter — including those whose
key is absent and which therefore resolve to their built-in default — yields
the same value before and after the round trip. -/
theorem settings_round_trip (c : ConfigData) (hc : WFConfig c) :
    readLines (writeLines c) = c ∧
    get_window_position (readLines (writeLines c)) = get_window_position c ∧
    get_font_size (readLines (writeLines c)) = get_font_size c ∧
    get_font_path (readLines (writeLines c)) = get_font_path c ∧
    get_custom_duration_minutes (readLines (writeLines c))
      = get_custom_duration_minutes c ∧
    get_pause_duration_minutes (readLines (writeLines c))
      = get_pause_duration_minutes c ∧
    get_work_timer_color (readLines (writeLines c)) = get_work_timer_color c ∧
    get_pause_timer_color (readLines (writeLines c)) = get_pause_timer_color c ∧
    get_show_work_alert (readLines (writeLines c)) = get_show_work_alert c ∧
    get_show_pause_alert (readLines (writeLines c)) = get_show_pause_alert c ∧
    get_always_on_top (readLines (writeLines c)) = get_always_on_top c := by
  have h := readLines_writeLines c hc
  rw [h]
  simp

/-- Witness for C9 at a concrete input: the default configuration written by
`_create_default_config` (which leaves `font_path` absent, exercising a
default-valued getter). -/
theorem settings_round_trip_witness :
    readLines (writeLines defaultConfig) = defaultConfig ∧
    get_window_position (readLines (writeLines defaultConfig))
      = get_window_position defaultConfig ∧
    get_font_size (readLines (writeLines defaultConfig))
      = get_font_size defaultConfig ∧
    get_font_path (readLines (writeLines defaultConfig))
      = get_font_path defaultConfig ∧
    get_custom_duration_minutes (readLines (writeLines defaultConfig))
      = get_custom_duration_minutes defaultConfig ∧
    get_pause_duration_minutes (readLines (writeLines defaultConfig))
      = get_pause_duration_minutes defaultConfig ∧
    get_work_timer_color (readLines (writeLines defaultConfig))
      = get_work_timer_color defaultConfig ∧
    get_pause_timer_color (readLines (writeLines defaultConfig))
      = get_pause_timer_color defaultConfig ∧
    get_show_work_alert (readLines (writeLines defaultConfig))
      = get_show_work_alert defaultConfig ∧
    get_show_pause_alert (readLines (writeLines defaultConfig))
      = get_show_pause_alert defaultConfig ∧
    get_always_on_top (readLines (writeLines defaultConfig))
      = get_always_on_top defaultConfig :=
  settings_round_trip defaultConfig (by decide)

end Pomodoro
